import Mathlib

/-
Verification development for the realtime collaborative flow core of the
Synapse repository.

The definitions below are a shallow embedding of the TypeScript source:
  * src/liveblocks.config.ts        (lock constants, isLockExpired)
  * src/hooks/use-realtime-flow.ts  (mutations: addNode, addEdge, updateNodes,
                                     updateEdges, updateNodePosition, deleteNode,
                                     and the lock manager: acquireLock, releaseLock,
                                     renewLock, getNodeLock, cleanupExpiredLocks)
  * src/scripts/test-anthropic.js   (handleNodesChangeFromLiveblocks, the node
                                     merge variant with the type-demotion guard;
                                     the spec designates this most complete
                                     variant as the one it describes)
  * src/lib/db/flow-queries.ts      (reactFlowNodeToDb, dbNodeToReactFlow)

Conventions of the embedding:
  * JavaScript objects are association lists of string keys and `JSVal` values;
    object spread and field assignment are right-biased overrides.
  * Liveblocks `LiveMap` is an association list with at most one live binding
    per key; `set` replaces the binding, `delete` removes it.
  * `Date.now()` timestamps are `Nat` milliseconds, passed explicitly.
  * `new Date().toISOString()` strings are passed explicitly as `nowIso`.
  * JavaScript numbers (binary64) are modelled as exact dyadic rationals
    `m / 2 ^ k`; `Number::toString` is modelled as the exact decimal expansion
    and `parseFloat` as the exact decimal value, which matches the ECMAScript
    round-trip guarantee `parseFloat (x.toString ()) = x` for finite `x`.
  * Functions stored inside node `data` (UI callbacks) are opaque `JSVal.fn`
    tags; `console.log` diagnostics and `broadcastEvent` side channels are
    omitted, since they do not affect the stored state.
-/

namespace Synapse

/-- A JavaScript runtime value as it appears inside node and edge `data`
objects: `undefined`, `null`, booleans, numbers, strings, and opaque function
values (tagged, since functions are never inspected, only moved around). -/
inductive JSVal where
  | undefinedVal
  | nullv
  | boolv (b : Bool)
  | num (q : ℚ)
  | str (s : String)
  | fn (tag : Nat)
deriving DecidableEq, Repr

/-- A JavaScript object: an association list of fields.  All object operations
below keep at most one binding per key. -/
abbrev JSObj := List (String × JSVal)

/-- Field read `o.k`: the first binding wins; a missing field is `undefined`. -/
def jsGet (o : JSObj) (k : String) : JSVal :=
  match o.find? (fun p => p.1 == k) with
  | some p => p.2
  | none => .undefinedVal

/-- Field write, as performed by an object-literal entry `k: v` overriding
earlier spreads: any previous binding of `k` is replaced. -/
def jsSet (o : JSObj) (k : String) (v : JSVal) : JSObj :=
  o.filter (fun p => !(p.1 == k)) ++ [(k, v)]

/-- Object spread `\x7b...a, ...b\x7d`: fields of `b` override fields of `a`. -/
def jsSpread (a b : JSObj) : JSObj :=
  b.foldl (fun acc p => jsSet acc p.1 p.2) a

/-- A JavaScript number modelled exactly: the dyadic rational `m / 2 ^ k`.
Every finite binary64 value is of this form. -/
structure Dyadic where
  m : Int
  k : Nat
deriving DecidableEq, Repr

/-- The rational value of a dyadic number. -/
def Dyadic.val (d : Dyadic) : ℚ := (d.m : ℚ) / ((2 : ℚ) ^ d.k)

/-- A ReactFlow position `\x7bx, y\x7d`. -/
structure Pos where
  x : Dyadic
  y : Dyadic
deriving DecidableEq, Repr

/-- A ReactFlow node as held in local client state: `id`, optional `type`
tag, `position`, and the `data` payload object. -/
structure Node where
  id : String
  type : Option String
  position : Pos
  data : JSObj
deriving DecidableEq, Repr

/-- The JavaScript truthiness fallback `t || dflt` for an optional string:
`undefined` and the empty string are falsy. -/
def jsOrDefault (t : Option String) (dflt : String) : String :=
  match t with
  | some s => if s = "" then dflt else s
  | none => dflt

/-- A Liveblocks `LiveMap`: string-keyed storage with one binding per key. -/
structure LiveMap (α : Type) where
  entries : List (String × α)
deriving DecidableEq, Repr

namespace LiveMap

variable {α : Type}

/-- `map.get(k)`. -/
def get (m : LiveMap α) (k : String) : Option α :=
  (m.entries.find? (fun p => p.1 == k)).map (fun p => p.2)

/-- `map.has(k)`. -/
def has (m : LiveMap α) (k : String) : Bool :=
  (m.get k).isSome

/-- `map.set(k, v)`: replaces any existing binding of `k`. -/
def set (m : LiveMap α) (k : String) (v : α) : LiveMap α :=
  ⟨m.entries.filter (fun p => !(p.1 == k)) ++ [(k, v)]⟩

/-- `map.delete(k)`. -/
def delete (m : LiveMap α) (k : String) : LiveMap α :=
  ⟨m.entries.filter (fun p => !(p.1 == k))⟩

/-- Deleting, during a `forEach` scan, every entry whose key and value fail
the predicate `q`; equivalently, keeping exactly the entries satisfying `q`. -/
def filterEntries (m : LiveMap α) (q : String → α → Bool) : LiveMap α :=
  ⟨m.entries.filter (fun p => q p.1 p.2)⟩

/-- Number of entries stored under key `k`. -/
def countKey (m : LiveMap α) (k : String) : Nat :=
  (m.entries.filter (fun p => p.1 == k)).length

/-- Well-formedness: one binding per key.  Every map reachable from the
operations above preserves this. -/
def WF (m : LiveMap α) : Prop :=
  (m.entries.map Prod.fst).Nodup

instance (m : LiveMap α) : Decidable m.WF := by
  unfold WF; infer_instance

theorem find?_keyFilter_self (l : List (String × α)) (k : String) :
    (l.filter (fun p => !(p.1 == k))).find? (fun p => p.1 == k) = none := by
  rw [List.find?_filter]
  apply List.find?_eq_none.mpr
  intro x _
  by_cases h : x.1 = k <;> simp [h]

theorem find?_keyFilter_ne (l : List (String × α)) (k k' : String) (h : k' ≠ k) :
    (l.filter (fun p => !(p.1 == k))).find? (fun p => p.1 == k')
      = l.find? (fun p => p.1 == k') := by
  induction l with
  | nil => rfl
  | cons p tl ih =>
      by_cases hp : p.1 = k'
      · have hpk : ¬ p.1 = k := by rw [hp]; exact h
        simp [List.filter_cons, hpk, hp, h]
      · have hcons : ∀ l : List (String × α),
            List.find? (fun q : String × α => q.1 == k') (p :: l)
              = List.find? (fun q : String × α => q.1 == k') l := by
          intro l
          apply List.find?_cons_of_neg
          simp [hp]
        by_cases hpk : p.1 = k
        · have hf : List.filter (fun q : String × α => !(q.1 == k)) (p :: tl)
              = List.filter (fun q : String × α => !(q.1 == k)) tl := by
            simp [List.filter_cons, hpk]
          rw [hf, ih, hcons]
        · have hf : List.filter (fun q : String × α => !(q.1 == k)) (p :: tl)
              = p :: List.filter (fun q : String × α => !(q.1 == k)) tl := by
            simp [List.filter_cons, hpk]
          rw [hf, hcons, ih, hcons]

theorem get_set_self (m : LiveMap α) (k : String) (v : α) :
    (m.set k v).get k = some v := by
  unfold get set
  rw [List.find?_append, find?_keyFilter_self]
  simp

theorem get_set_ne (m : LiveMap α) (k k' : String) (v : α) (h : k' ≠ k) :
    (m.set k v).get k' = m.get k' := by
  unfold get set
  rw [List.find?_append, find?_keyFilter_ne _ _ _ h]
  have : ((k, v).1 == k') = false := by simpa using (Ne.symm h)
  simp [this]

theorem get_delete_self (m : LiveMap α) (k : String) :
    (m.delete k).get k = none := by
  unfold get delete
  rw [find?_keyFilter_self]
  rfl

theorem get_delete_ne (m : LiveMap α) (k k' : String) (h : k' ≠ k) :
    (m.delete k).get k' = m.get k' := by
  unfold get delete
  rw [find?_keyFilter_ne _ _ _ h]

theorem has_set_self (m : LiveMap α) (k : String) (v : α) :
    (m.set k v).has k = true := by
  unfold has
  rw [get_set_self]
  rfl

theorem countKey_set_self (m : LiveMap α) (k : String) (v : α) :
    (m.set k v).countKey k = 1 := by
  unfold countKey set
  rw [List.filter_append, List.filter_filter]
  have h1 : (m.entries.filter (fun a => (a.1 == k) && !(a.1 == k))) = [] := by
    apply List.filter_eq_nil_iff.mpr
    intro a _
    by_cases h : a.1 = k <;> simp [h]
  rw [h1]
  simp [List.filter]

theorem filter_key_length_one (l : List (String × α)) (k : String)
    (hnd : (l.map Prod.fst).Nodup) (hmem : (l.find? (fun p => p.1 == k)).isSome) :
    (l.filter (fun p => p.1 == k)).length = 1 := by
  induction l with
  | nil => simp at hmem
  | cons p tl ih =>
      simp only [List.map_cons, List.nodup_cons] at hnd
      by_cases hp : p.1 = k
      · have htl : tl.filter (fun q => q.1 == k) = [] := by
          apply List.filter_eq_nil_iff.mpr
          intro a ha hak
          apply hnd.1
          have hmem' : a.1 ∈ tl.map Prod.fst := List.mem_map_of_mem Prod.fst ha
          have hak' : a.1 = k := by simpa using hak
          rw [hp, ← hak']
          exact hmem'
        simp [List.filter_cons, hp, htl]
      · rw [List.find?_cons_of_neg _ (by simpa using hp)] at hmem
        have := ih hnd.2 hmem
        simpa [List.filter_cons, hp] using this

theorem countKey_eq_one_of_has (m : LiveMap α) (k : String)
    (hWF : m.WF) (h : m.has k = true) : m.countKey k = 1 := by
  unfold has get at h
  unfold countKey
  unfold WF at hWF
  exact filter_key_length_one m.entries k hWF (by simpa using h)

end LiveMap

/-- A node lock record (src/liveblocks.config.ts, type NodeLock). -/
structure NodeLock where
  nodeId : String
  userId : String
  userName : String
  lockedAt : Nat
  expiresAt : Nat
deriving DecidableEq, Repr

/-- Lock timeout duration, 5 minutes (src/liveblocks.config.ts). -/
def LOCK_TIMEOUT_MS : Nat := 5 * 60 * 1000

/-- isLockExpired (src/liveblocks.config.ts): `Date.now() > lock.expiresAt`,
with the current time passed explicitly. -/
def isLockExpired (now : Nat) (lock : NodeLock) : Bool :=
  decide (lock.expiresAt < now)

/-- acquireLock (src/hooks/use-realtime-flow.ts, lines 422-444).  Returns the
boolean result together with the updated lock map; the `node-locked` broadcast
is omitted.  The source returns `false` without touching the map when an
unexpired lock of another user exists, and otherwise writes a fresh lock for
the caller and returns `true`. -/
def acquireLock (locks : LiveMap NodeLock) (nodeId userId userName : String)
    (now : Nat) : Bool × LiveMap NodeLock :=
  match locks.get nodeId with
  | some existingLock =>
      if isLockExpired now existingLock = false ∧ existingLock.userId ≠ userId then
        (false, locks)
      else
        (true, locks.set nodeId ⟨nodeId, userId, userName, now, now + LOCK_TIMEOUT_MS⟩)
  | none =>
      (true, locks.set nodeId ⟨nodeId, userId, userName, now, now + LOCK_TIMEOUT_MS⟩)

/-- releaseLock (src/hooks/use-realtime-flow.ts, lines 446-454): deletes the
lock only when the caller is the holder; the `node-unlocked` broadcast is
omitted. -/
def releaseLock (locks : LiveMap NodeLock) (nodeId userId : String) :
    LiveMap NodeLock :=
  match locks.get nodeId with
  | some lock => if lock.userId = userId then locks.delete nodeId else locks
  | none => locks

/-- renewLock (src/hooks/use-realtime-flow.ts, lines 456-467): when the caller
holds the record, extend `expiresAt` to `now + LOCK_TIMEOUT_MS` and return
`true`; otherwise return `false` and leave the map unchanged.  Note the source
performs no expiry check here. -/
def renewLock (locks : LiveMap NodeLock) (nodeId userId : String) (now : Nat) :
    Bool × LiveMap NodeLock :=
  match locks.get nodeId with
  | some lock =>
      if lock.userId = userId then
        (true, locks.set nodeId { lock with expiresAt := now + LOCK_TIMEOUT_MS })
      else
        (false, locks)
  | none => (false, locks)

/-- getNodeLock (src/hooks/use-realtime-flow.ts, lines 470-474): lazy expiry
check on read, `lock && !isLockExpired(lock) ? lock : null`. -/
def getNodeLock (locks : LiveMap NodeLock) (nodeId : String) (now : Nat) :
    Option NodeLock :=
  match locks.get nodeId with
  | some lock => if isLockExpired now lock then none else some lock
  | none => none

/-- hasLock (src/hooks/use-realtime-flow.ts, lines 477-480):
`getNodeLock(nodeId)?.userId === userId`. -/
def hasLock (locks : LiveMap NodeLock) (nodeId userId : String) (now : Nat) :
    Bool :=
  match getNodeLock locks nodeId now with
  | some lock => lock.userId == userId
  | none => false

/-- cleanupExpiredLocks (src/hooks/use-realtime-flow.ts, lines 483-493):
deletes every lock with `expiresAt < now`; broadcasts omitted. -/
def cleanupExpiredLocks (locks : LiveMap NodeLock) (now : Nat) : LiveMap NodeLock :=
  locks.filterEntries (fun _ lock => !(decide (lock.expiresAt < now)))

/-- C2. Lock mutual exclusion: after user A successfully acquires the lock on
`nodeId` at time `tA`, any acquire attempt by a different user B at a time
`tB` at which the lock is not yet expired (that is, `tB ≤ tA + LOCK_TIMEOUT_MS`,
so `isLockExpired` is false) returns `false` and leaves the lock map
unchanged; since the store holds at most one record per `nodeId`, at most one
valid lock per node exists at any time. -/
theorem acquireLock_mutual_exclusion (locks : LiveMap NodeLock)
    (nodeId uA nA uB nB : String) (tA tB : Nat)
    (hA : (acquireLock locks nodeId uA nA tA).1 = true)
    (hAB : uB ≠ uA)
    (hexp : tB ≤ tA + LOCK_TIMEOUT_MS) :
    acquireLock (acquireLock locks nodeId uA nA tA).2 nodeId uB nB tB
      = (false, (acquireLock locks nodeId uA nA tA).2) := by
  have hfresh : (acquireLock locks nodeId uA nA tA).2
      = locks.set nodeId ⟨nodeId, uA, nA, tA, tA + LOCK_TIMEOUT_MS⟩ := by
    unfold acquireLock at hA ⊢
    cases hg : locks.get nodeId with
    | none => simp [hg]
    | some l =>
        rw [hg] at hA
        by_cases hc : isLockExpired tA l = false ∧ l.userId ≠ uA
        · simp [hc] at hA
        · simp [hc]
  rw [hfresh]
  unfold acquireLock
  rw [LiveMap.get_set_self]
  have hnotexp : isLockExpired tB ⟨nodeId, uA, nA, tA, tA + LOCK_TIMEOUT_MS⟩ = false := by
    unfold isLockExpired
    simp
    omega
  simp [hnotexp, Ne.symm hAB]

/-- Witness for C2: user bob cannot take the lock alice acquired at t = 0 when
asking one minute later. -/
theorem acquireLock_mutual_exclusion_witness :
    acquireLock (acquireLock ⟨[]⟩ "n1" "alice" "Alice" 0).2 "n1" "bob" "Bob" 60000
      = (false, (acquireLock ⟨[]⟩ "n1" "alice" "Alice" 0).2) :=
  acquireLock_mutual_exclusion ⟨[]⟩ "n1" "alice" "Alice" "bob" "Bob" 0 60000
    (by decide) (by decide) (by decide)

/-- C4. Lock expiry: a stored lock whose `expiresAt` lies in the past is
treated as absent regardless of its holder: `getNodeLock` returns `none` for
it, and `acquireLock` by any caller succeeds and replaces the record with a
fresh lock for that caller. -/
theorem lock_expiry_treated_as_absent (locks : LiveMap NodeLock)
    (nodeId u un : String) (now : Nat) (lock : NodeLock)
    (hget : locks.get nodeId = some lock)
    (hexp : isLockExpired now lock = true) :
    getNodeLock locks nodeId now = none
    ∧ acquireLock locks nodeId u un now
        = (true, locks.set nodeId ⟨nodeId, u, un, now, now + LOCK_TIMEOUT_MS⟩) := by
  constructor
  · unfold getNodeLock
    rw [hget]
    simp [hexp]
  · unfold acquireLock
    rw [hget]
    simp [hexp]

/-- Witness for C4: a lock of alice that expired at t = 10 is invisible to
`getNodeLock` at t = 11 and is taken over by bob. -/
theorem lock_expiry_treated_as_absent_witness :
    getNodeLock ⟨[("n1", ⟨"n1", "alice", "Alice", 0, 10⟩)]⟩ "n1" 11 = none
    ∧ acquireLock ⟨[("n1", ⟨"n1", "alice", "Alice", 0, 10⟩)]⟩ "n1" "bob" "Bob" 11
        = (true, LiveMap.set ⟨[("n1", ⟨"n1", "alice", "Alice", 0, 10⟩)]⟩ "n1"
            ⟨"n1", "bob", "Bob", 11, 11 + LOCK_TIMEOUT_MS⟩) :=
  lock_expiry_treated_as_absent ⟨[("n1", ⟨"n1", "alice", "Alice", 0, 10⟩)]⟩
    "n1" "bob" "Bob" 11 ⟨"n1", "alice", "Alice", 0, 10⟩ (by decide) (by decide)

/-- C10. Renewal ignores expiry: when the stored record's holder equals the
caller, `renewLock` returns `true` and rewrites `expiresAt` to
`now + LOCK_TIMEOUT_MS` with no expiry check (so it succeeds even on an
already-expired record); when the record is absent or held by someone else it
returns `false` and leaves the map unchanged. -/
theorem renewLock_ignores_expiry (locks : LiveMap NodeLock)
    (nodeId u : String) (now : Nat) :
    (∀ lock, locks.get nodeId = some lock → lock.userId = u →
        renewLock locks nodeId u now
          = (true, locks.set nodeId { lock with expiresAt := now + LOCK_TIMEOUT_MS }))
    ∧ (locks.get nodeId = none → renewLock locks nodeId u now = (false, locks))
    ∧ (∀ lock, locks.get nodeId = some lock → lock.userId ≠ u →
        renewLock locks nodeId u now = (false, locks)) := by
  refine ⟨?_, ?_, ?_⟩
  · intro lock hget hu
    unfold renewLock
    rw [hget]
    simp [hu]
  · intro hget
    unfold renewLock
    rw [hget]
  · intro lock hget hu
    unfold renewLock
    rw [hget]
    simp [hu]

/-- Witness for C10: alice renews a record that expired at t = 10 at the later
time t = 20 and gets a fresh `expiresAt`, while bob's attempt on the same
record fails and changes nothing. -/
theorem renewLock_ignores_expiry_witness :
    renewLock ⟨[("n1", ⟨"n1", "alice", "Alice", 0, 10⟩)]⟩ "n1" "alice" 20
      = (true, LiveMap.set ⟨[("n1", ⟨"n1", "alice", "Alice", 0, 10⟩)]⟩ "n1"
          ⟨"n1", "alice", "Alice", 0, 20 + LOCK_TIMEOUT_MS⟩)
    ∧ renewLock ⟨[("n1", ⟨"n1", "alice", "Alice", 0, 10⟩)]⟩ "n1" "bob" 20
      = (false, ⟨[("n1", ⟨"n1", "alice", "Alice", 0, 10⟩)]⟩) :=
  ⟨(renewLock_ignores_expiry ⟨[("n1", ⟨"n1", "alice", "Alice", 0, 10⟩)]⟩ "n1"
      "alice" 20).1 ⟨"n1", "alice", "Alice", 0, 10⟩ (by decide) (by decide),
   (renewLock_ignores_expiry ⟨[("n1", ⟨"n1", "alice", "Alice", 0, 10⟩)]⟩ "n1"
      "bob" 20).2.2 ⟨"n1", "alice", "Alice", 0, 10⟩ (by decide) (by decide)⟩

/-- A node record as stored in the Liveblocks `flowNodes` map
(src/liveblocks.config.ts, type LiveFlowNode). -/
structure LiveFlowNode where
  id : String
  type : String
  position : Pos
  data : JSObj
  parentNodeId : Option String
  chatId : String
  createdAt : String
  updatedAt : String
deriving DecidableEq, Repr

/-- An edge record as stored in the Liveblocks `flowEdges` map
(src/liveblocks.config.ts, type LiveFlowEdge). -/
structure LiveFlowEdge where
  id : String
  source : String
  target : String
  type : Option String
  animated : Option Bool
  style : JSObj
  chatId : String
  createdAt : String
  creatorId : String
  creatorColor : String
deriving DecidableEq, Repr

/-- addNode (src/hooks/use-realtime-flow.ts, lines 334-363), the storage
mutation body: no-op when a record with the id already exists, otherwise
write a fresh record stamped with `chatId` and the current ISO timestamp. -/
def addNode (m : LiveMap LiveFlowNode) (node : Node) (chatId nowIso : String) :
    LiveMap LiveFlowNode :=
  if m.has node.id then m
  else
    m.set node.id
      { id := node.id
        type := jsOrDefault node.type "default"
        position := node.position
        data := node.data
        parentNodeId := none
        chatId := chatId
        createdAt := nowIso
        updatedAt := nowIso }

/-- A ReactFlow edge as held in local client state. -/
structure Edge where
  id : String
  source : String
  target : String
  type : Option String
  animated : Option Bool
  style : JSObj
deriving DecidableEq, Repr

/-- addEdge (src/hooks/use-realtime-flow.ts, lines 366-397), the storage
mutation body: idempotent create with the caller's stroke color stamped into
the style; the `edge-added` broadcast is omitted. -/
def addEdge (m : LiveMap LiveFlowEdge) (edge : Edge)
    (chatId nowIso userId userColor : String) : LiveMap LiveFlowEdge :=
  if m.has edge.id then m
  else
    m.set edge.id
      { id := edge.id
        source := edge.source
        target := edge.target
        type := edge.type
        animated := edge.animated
        style := jsSet (jsSet edge.style "stroke" (JSVal.str userColor))
          "strokeWidth" (JSVal.num 2)
        chatId := chatId
        createdAt := nowIso
        creatorId := userId
        creatorColor := userColor }

/-- deleteNode (src/hooks/use-realtime-flow.ts, lines 400-419), the storage
mutation body: delete the node record, then scan all edges and delete every
edge whose source or target equals the node id. -/
def deleteNode (nodesMap : LiveMap LiveFlowNode) (edgesMap : LiveMap LiveFlowEdge)
    (nodeId : String) : LiveMap LiveFlowNode × LiveMap LiveFlowEdge :=
  (nodesMap.delete nodeId,
   edgesMap.filterEntries (fun _ edge => !((edge.source == nodeId) || (edge.target == nodeId))))

/-- C6. Idempotent add: on a well-formed map, running addNode twice with the
same node leaves exactly one record keyed by the node id, the second call
changes nothing, and when a record with that id already exists the first call
is also a pure no-op (no upsert). -/
theorem addNode_idempotent (m : LiveMap LiveFlowNode) (node : Node)
    (chatId t1 t2 : String) (hWF : m.WF) :
    addNode (addNode m node chatId t1) node chatId t2 = addNode m node chatId t1
    ∧ (addNode m node chatId t1).countKey node.id = 1
    ∧ (m.has node.id = true → addNode m node chatId t1 = m) := by
  by_cases h : m.has node.id = true
  · have h1 : addNode m node chatId t1 = m := by
      unfold addNode
      simp [h]
    refine ⟨?_, ?_, fun _ => h1⟩
    · rw [h1]
      unfold addNode
      simp [h]
    · rw [h1]
      exact LiveMap.countKey_eq_one_of_has m node.id hWF h
  · have hset : addNode m node chatId t1
        = m.set node.id
            { id := node.id
              type := jsOrDefault node.type "default"
              position := node.position
              data := node.data
              parentNodeId := none
              chatId := chatId
              createdAt := t1
              updatedAt := t1 } := by
      unfold addNode
      simp [h]
    refine ⟨?_, ?_, fun hh => absurd hh h⟩
    · rw [hset]
      unfold addNode
      simp [LiveMap.has_set_self]
    · rw [hset]
      exact LiveMap.countKey_set_self m node.id _

/-- Witness for C6: adding the same node twice to a one-entry map keeps
exactly one record under that id and the second call is a no-op. -/
theorem addNode_idempotent_witness :
    addNode (addNode (LiveMap.mk []) ⟨"p1", some "promptNode", ⟨⟨0, 0⟩, ⟨0, 0⟩⟩, []⟩ "c1" "t1")
        ⟨"p1", some "promptNode", ⟨⟨0, 0⟩, ⟨0, 0⟩⟩, []⟩ "c1" "t2"
      = addNode (LiveMap.mk []) ⟨"p1", some "promptNode", ⟨⟨0, 0⟩, ⟨0, 0⟩⟩, []⟩ "c1" "t1"
    ∧ (addNode (LiveMap.mk []) ⟨"p1", some "promptNode", ⟨⟨0, 0⟩, ⟨0, 0⟩⟩, []⟩ "c1" "t1").countKey "p1" = 1 := by
  have h := addNode_idempotent (LiveMap.mk [])
    ⟨"p1", some "promptNode", ⟨⟨0, 0⟩, ⟨0, 0⟩⟩, []⟩ "c1" "t1" "t2" (by decide)
  exact ⟨h.1, h.2.1⟩

/-- C5. Cascade delete: deleteNode removes the node record and exactly the
edges touching the node; every other node record and every edge not touching
the node keeps its stored value. -/
theorem deleteNode_cascade (nodesMap : LiveMap LiveFlowNode)
    (edgesMap : LiveMap LiveFlowEdge) (nodeId : String) (hWF : edgesMap.WF) :
    (deleteNode nodesMap edgesMap nodeId).1.get nodeId = none
    ∧ (∀ k, k ≠ nodeId →
        (deleteNode nodesMap edgesMap nodeId).1.get k = nodesMap.get k)
    ∧ (∀ eid e, (deleteNode nodesMap edgesMap nodeId).2.get eid = some e
        ↔ (edgesMap.get eid = some e ∧ e.source ≠ nodeId ∧ e.target ≠ nodeId)) := by
  refine ⟨LiveMap.get_delete_self nodesMap nodeId,
    fun k hk => LiveMap.get_delete_ne nodesMap nodeId k hk, fun eid e => ?_⟩
  unfold deleteNode LiveMap.filterEntries LiveMap.get
  simp only [List.find?_filter]
  constructor
  · intro h
    obtain ⟨p, hfind, hp2⟩ : ∃ p, edgesMap.entries.find?
        (fun a => (!((a.2.source == nodeId) || (a.2.target == nodeId))) ∧ (a.1 == eid)) = some p
        ∧ p.2 = e := by
      cases hf : edgesMap.entries.find?
          (fun a => (!((a.2.source == nodeId) || (a.2.target == nodeId))) ∧ (a.1 == eid)) with
      | none => rw [hf] at h; simp at h
      | some p => rw [hf] at h; exact ⟨p, rfl, by simpa using h⟩
    have hpred := List.find?_some hfind
    have hmem := List.mem_of_find?_eq_some hfind
    have hkey : p.1 = eid := by
      simp only [Bool.and_eq_true, decide_eq_true_eq, Bool.not_eq_true'] at hpred
      simpa using hpred.2
    have hsrc : ¬ (p.2.source = nodeId ∨ p.2.target = nodeId) := by
      simp only [Bool.and_eq_true, decide_eq_true_eq] at hpred
      have := hpred.1
      simp only [Bool.not_eq_true', Bool.or_eq_false_iff, beq_eq_false_iff_ne] at this
      intro hc
      cases hc with
      | inl hc => exact this.1 hc
      | inr hc => exact this.2 hc
    have hget : edgesMap.get eid = some e := by
      unfold LiveMap.get
      have hone := LiveMap.filter_key_length_one edgesMap.entries eid hWF
        (by
          apply List.find?_isSome.mpr
          exact ⟨p, hmem, by simpa using hkey⟩)
      cases hf2 : edgesMap.entries.find? (fun q => q.1 == eid) with
      | none =>
          rw [List.find?_eq_none] at hf2
          exact absurd (by simpa using hkey) (by simpa using hf2 p hmem)
      | some q =>
          have hqmem := List.mem_of_find?_eq_some hf2
          have hqkey : q.1 = eid := by simpa using List.find?_some hf2
          have : q = p := by
            have hpf : p ∈ edgesMap.entries.filter (fun r => r.1 == eid) :=
              List.mem_filter.mpr ⟨hmem, by simpa using hkey⟩
            have hqf : q ∈ edgesMap.entries.filter (fun r => r.1 == eid) :=
              List.mem_filter.mpr ⟨hqmem, by simpa using hqkey⟩
            have hlen := hone
            cases hfl : edgesMap.entries.filter (fun r => r.1 == eid) with
            | nil => rw [hfl] at hpf; simp at hpf
            | cons a tl =>
                rw [hfl] at hlen hpf hqf
                have htl : tl = [] := by
                  simpa using hlen
                subst htl
                simp at hpf hqf
                rw [hpf, hqf]
          rw [this]
          simp [hp2]
    subst hp2
    exact ⟨hget, fun hc => hsrc (Or.inl hc), fun hc => hsrc (Or.inr hc)⟩
  · rintro ⟨hget, hs, ht⟩
    obtain ⟨p, hfind, hp2⟩ : ∃ p, edgesMap.entries.find? (fun q => q.1 == eid) = some p
        ∧ p.2 = e := by
      cases hf : edgesMap.entries.find? (fun q => q.1 == eid) with
      | none => rw [hf] at hget; simp at hget
      | some p => rw [hf] at hget; exact ⟨p, rfl, by simpa using hget⟩
    have hkey : p.1 = eid := by simpa using List.find?_some hfind
    have hmem := List.mem_of_find?_eq_some hfind
    have hgoal : edgesMap.entries.find?
        (fun a => (!((a.2.source == nodeId) || (a.2.target == nodeId))) ∧ (a.1 == eid)) = some p := by
      have hone := LiveMap.filter_key_length_one edgesMap.entries eid hWF
        (by rw [hfind]; rfl)
      cases hf3 : edgesMap.entries.find?
          (fun a => (!((a.2.source == nodeId) || (a.2.target == nodeId))) ∧ (a.1 == eid)) with
      | none =>
          rw [List.find?_eq_none] at hf3
          exfalso
          apply hf3 p hmem
          subst hp2
          simp [hkey, hs, ht]
      | some q =>
          have hq := List.find?_some hf3
          have hqmem := List.mem_of_find?_eq_some hf3
          have hqkey : q.1 = eid := by
            rw [decide_eq_true_eq] at hq
            simpa using hq.2
          have : q = p := by
            have hpf : p ∈ edgesMap.entries.filter (fun r => r.1 == eid) :=
              List.mem_filter.mpr ⟨hmem, by simpa using hkey⟩
            have hqf : q ∈ edgesMap.entries.filter (fun r => r.1 == eid) :=
              List.mem_filter.mpr ⟨hqmem, by simpa using hqkey⟩
            cases hfl : edgesMap.entries.filter (fun r => r.1 == eid) with
            | nil => rw [hfl] at hpf; simp at hpf
            | cons a tl =>
                rw [hfl] at hone hpf hqf
                have htl : tl = [] := by simpa using hone
                subst htl
                simp at hpf hqf
                rw [hpf, hqf]
          rw [this]
    rw [hgoal]
    simp [hp2]

/-- Witness for C5 (spec scenario 5): deleting n3 removes edges e1 (n3 to n4)
and e2 (n5 to n3) and keeps e6 (n4 to n5), and removes the node record n3. -/
theorem deleteNode_cascade_witness :
    (deleteNode
        ⟨[("n3", ⟨"n3", "default", ⟨⟨0, 0⟩, ⟨0, 0⟩⟩, [], none, "c1", "t0", "t0"⟩)]⟩
        ⟨[("e1", ⟨"e1", "n3", "n4", none, none, [], "c1", "t0", "u1", "#fff"⟩),
          ("e2", ⟨"e2", "n5", "n3", none, none, [], "c1", "t0", "u1", "#fff"⟩),
          ("e6", ⟨"e6", "n4", "n5", none, none, [], "c1", "t0", "u1", "#fff"⟩)]⟩
        "n3").1.get "n3" = none
    ∧ (deleteNode
        ⟨[("n3", ⟨"n3", "default", ⟨⟨0, 0⟩, ⟨0, 0⟩⟩, [], none, "c1", "t0", "t0"⟩)]⟩
        ⟨[("e1", ⟨"e1", "n3", "n4", none, none, [], "c1", "t0", "u1", "#fff"⟩),
          ("e2", ⟨"e2", "n5", "n3", none, none, [], "c1", "t0", "u1", "#fff"⟩),
          ("e6", ⟨"e6", "n4", "n5", none, none, [], "c1", "t0", "u1", "#fff"⟩)]⟩
        "n3").2.get "e6" = some ⟨"e6", "n4", "n5", none, none, [], "c1", "t0", "u1", "#fff"⟩ := by
  have h := deleteNode_cascade
    ⟨[("n3", ⟨"n3", "default", ⟨⟨0, 0⟩, ⟨0, 0⟩⟩, [], none, "c1", "t0", "t0"⟩)]⟩
    ⟨[("e1", ⟨"e1", "n3", "n4", none, none, [], "c1", "t0", "u1", "#fff"⟩),
      ("e2", ⟨"e2", "n5", "n3", none, none, [], "c1", "t0", "u1", "#fff"⟩),
      ("e6", ⟨"e6", "n4", "n5", none, none, [], "c1", "t0", "u1", "#fff"⟩)]⟩
    "n3" (by decide)
  refine ⟨h.1, ?_⟩
  apply (h.2.2 "e6" ⟨"e6", "n4", "n5", none, none, [], "c1", "t0", "u1", "#fff"⟩).mpr
  refine ⟨by decide, by decide, by decide⟩

/-- The client-side context captured by the `handleNodesChangeFromLiveblocks`
callback (src/scripts/test-anthropic.js): the current local node list, the set
of node ids being dragged, the restored-from-saved-nodes flags, the current
time, and the `wrappedSendMessage` function injected into repaired prompt
nodes. -/
structure MergeCtx where
  localNodes : List Node
  dragging : List String
  hasRestored : Bool
  restoredTimestamp : Nat
  now : Nat
  sendMessageFn : JSVal
deriving DecidableEq, Repr

/-- Lookup in `new Map(newNodes.map(n => [n.id, n]))`: when the list carries
several nodes with one id, Map construction keeps the last binding. -/
def jsMapGet (l : List Node) (k : String) : Option Node :=
  (l.filter (fun n => n.id == k)).getLast?

/-- The `data` object built when merging a remote update into a local
`answerNode` (src/scripts/test-anthropic.js, lines 370-383): spread local
data, spread remote data over it, then restore the local `userMessage`,
`assistantMessage`, `isLoading` and `onAddNewNode` fields. -/
def mergeAnswerData (localData newData : JSObj) : JSObj :=
  jsSet (jsSet (jsSet (jsSet (jsSpread localData newData)
    "userMessage" (jsGet localData "userMessage"))
    "assistantMessage" (jsGet localData "assistantMessage"))
    "isLoading" (jsGet localData "isLoading"))
    "onAddNewNode" (jsGet localData "onAddNewNode")

/-- The per-local-node merge body (src/scripts/test-anthropic.js, lines
349-390): a dragged node is kept verbatim; the type-demotion guard keeps a
local `answerNode` when the remote claims `promptNode`; an `answerNode`
otherwise takes the remote record but keeps its type and message data; any
other node with a remote counterpart takes the remote verbatim; a node with
no remote counterpart is kept. -/
def mergeLocalNode (dragging : List String) (newNodes : List Node)
    (localNode : Node) : Node :=
  if dragging.contains localNode.id then localNode
  else
    match jsMapGet newNodes localNode.id with
    | some newNode =>
        if localNode.type = some "answerNode" ∧ newNode.type = some "promptNode" then
          localNode
        else if localNode.type = some "answerNode" then
          { newNode with
              type := some "answerNode"
              data := mergeAnswerData localNode.data newNode.data }
        else newNode
    | none => localNode

/-- The callback-field repair applied to a remote prompt node that has no
local counterpart (src/scripts/test-anthropic.js, lines 396-407): inject
`sendMessage` and set `status` to ready. -/
def repairPromptNode (sendFn : JSVal) (n : Node) : Node :=
  if n.type = some "promptNode" then
    { n with data := jsSet (jsSet n.data "sendMessage" sendFn) "status" (JSVal.str "ready") }
  else n

/-- Appending remote nodes with no counterpart in the merged list
(src/scripts/test-anthropic.js, lines 393-411). -/
def appendNewNodes (sendFn : JSVal) (newNodes : List Node) (acc : List Node) :
    List Node :=
  newNodes.foldl
    (fun acc2 newNode =>
      if acc2.any (fun n => n.id == newNode.id) then acc2
      else acc2 ++ [repairPromptNode sendFn newNode]) acc

/-- handleNodesChangeFromLiveblocks (src/scripts/test-anthropic.js, lines
320-418), as a pure function from the captured context and the remote
snapshot to the resulting local node list.  The three early returns leave
local state untouched; otherwise local nodes are merged one by one and
remote-only nodes are appended. -/
def handleNodesChangeFromLiveblocks (ctx : MergeCtx) (newNodes : List Node) :
    List Node :=
  if newNodes.length = 0 ∧ 0 < ctx.localNodes.length then ctx.localNodes
  else if ctx.hasRestored = true ∧ 0 < ctx.restoredTimestamp
      ∧ (ctx.now : Int) - (ctx.restoredTimestamp : Int) < 3000 then ctx.localNodes
  else if newNodes.length < ctx.localNodes.length then ctx.localNodes
  else
    appendNewNodes ctx.sendMessageFn newNodes
      (ctx.localNodes.map (mergeLocalNode ctx.dragging newNodes))

theorem jsMapGet_id (l : List Node) (k : String) (n : Node)
    (h : jsMapGet l k = some n) : n.id = k := by
  unfold jsMapGet at h
  rw [List.filter_getLast?] at h
  simpa using List.find?_some h

theorem jsMapGet_eq_some_of_mem (l : List Node) (rn : Node) (k : String)
    (hmem : rn ∈ l) (hid : rn.id = k) (hnd : (l.map Node.id).Nodup) :
    jsMapGet l k = some rn := by
  unfold jsMapGet
  induction l with
  | nil => simp at hmem
  | cons a tl ih =>
      simp only [List.map_cons, List.nodup_cons] at hnd
      by_cases hak : a.id = k
      · have hrn : rn = a := by
          rcases List.mem_cons.mp hmem with h | h
          · exact h
          · exfalso
            apply hnd.1
            rw [hak, ← hid]
            exact List.mem_map_of_mem Node.id h
        subst hrn
        have htl : tl.filter (fun n => n.id == k) = [] := by
          apply List.filter_eq_nil_iff.mpr
          intro x hx hxk
          apply hnd.1
          rw [hak, ← show x.id = k from by simpa using hxk]
          exact List.mem_map_of_mem Node.id hx
        simp [List.filter_cons, hak, htl]
      · have hrn : rn ∈ tl := by
          rcases List.mem_cons.mp hmem with h | h
          · exact absurd (h ▸ hid) hak
          · exact h
        have := ih hrn hnd.2
        simpa [List.filter_cons, hak] using this

theorem mergeLocalNode_id (dragging : List String) (newNodes : List Node)
    (x : Node) : (mergeLocalNode dragging newNodes x).id = x.id := by
  unfold mergeLocalNode
  by_cases hd : x.id ∈ dragging
  · simp [hd]
  · rw [if_neg (by simpa using hd)]
    cases hg : jsMapGet newNodes x.id with
    | none => simp [hg]
    | some newNode =>
        have hgid := jsMapGet_id newNodes x.id newNode hg
        by_cases h1 : x.type = some "answerNode" ∧ newNode.type = some "promptNode"
        · simp [hg, h1]
        · by_cases h2 : x.type = some "answerNode"
          · have hB : ¬ newNode.type = some "promptNode" := fun hb => h1 ⟨h2, hb⟩
            simp [hg, h1, h2, hB, hgid]
          · simp [hg, h1, h2, hgid]

theorem appendNewNodes_preserves (sendFn : JSVal) (newNodes : List Node)
    (acc : List Node) (ln : Node) (h1 : ln ∈ acc)
    (h2 : ∀ n ∈ acc, n.id = ln.id → n = ln) :
    ln ∈ appendNewNodes sendFn newNodes acc
    ∧ ∀ n ∈ appendNewNodes sendFn newNodes acc, n.id = ln.id → n = ln := by
  unfold appendNewNodes
  induction newNodes generalizing acc with
  | nil => exact ⟨h1, h2⟩
  | cons newNode rest ih =>
      simp only [List.foldl_cons]
      by_cases hany : acc.any (fun n => n.id == newNode.id) = true
      · rw [if_pos hany]
        exact ih acc h1 h2
      · rw [if_neg hany]
        apply ih
        · exact List.mem_append_left _ h1
        · intro n hn hnid
          rcases List.mem_append.mp hn with h | h
          · exact h2 n h hnid
          · exfalso
            apply hany
            have hn' : n = repairPromptNode sendFn newNode := by simpa using h
            apply List.any_eq_true.mpr
            refine ⟨ln, h1, ?_⟩
            have hrid : (repairPromptNode sendFn newNode).id = newNode.id := by
              unfold repairPromptNode
              by_cases ht : newNode.type = some "promptNode" <;> simp [ht]
            have : newNode.id = ln.id := by
              rw [← hrid, ← hn', hnid]
            simp [this]

theorem merge_keeps_local (ctx : MergeCtx) (newNodes : List Node) (ln : Node)
    (hln : ln ∈ ctx.localNodes)
    (hlocal : (ctx.localNodes.map Node.id).Nodup)
    (hfix : mergeLocalNode ctx.dragging newNodes ln = ln) :
    ln ∈ handleNodesChangeFromLiveblocks ctx newNodes
    ∧ ∀ n ∈ handleNodesChangeFromLiveblocks ctx newNodes, n.id = ln.id → n = ln := by
  have hinj : ∀ n ∈ ctx.localNodes, n.id = ln.id → n = ln := by
    intro n hn hnid
    exact List.inj_on_of_nodup_map hlocal hn hln hnid
  unfold handleNodesChangeFromLiveblocks
  split_ifs with h1 h2 h3
  · exact ⟨hln, hinj⟩
  · exact ⟨hln, hinj⟩
  · exact ⟨hln, hinj⟩
  · apply appendNewNodes_preserves
    · exact List.mem_map.mpr ⟨ln, hln, hfix⟩
    · intro n hn hnid
      rcases List.mem_map.mp hn with ⟨x, hx, hxe⟩
      have hxid : x.id = ln.id := by
        rw [← hnid, ← hxe]
        exact (mergeLocalNode_id ctx.dragging newNodes x).symm
      have hxln : x = ln := List.inj_on_of_nodup_map hlocal hx hln hxid
      rw [← hxe, hxln, hfix]

/-- C1. No type regression: when the local list holds a node of type
`answerNode` and the remote snapshot holds a node with the same id of type
`promptNode`, the merge keeps the local node verbatim (the remote update is
rejected), and the merged list carries no other node with that id.  Stated
for snapshots and local lists with unique node ids, which is what the
per-id storage map produces. -/
theorem merge_no_type_regression (ctx : MergeCtx) (newNodes : List Node)
    (ln rn : Node)
    (hln : ln ∈ ctx.localNodes) (hlt : ln.type = some "answerNode")
    (hrn : rn ∈ newNodes) (hid : rn.id = ln.id) (hrt : rn.type = some "promptNode")
    (hlocal : (ctx.localNodes.map Node.id).Nodup)
    (hremote : (newNodes.map Node.id).Nodup) :
    ln ∈ handleNodesChangeFromLiveblocks ctx newNodes
    ∧ ∀ n ∈ handleNodesChangeFromLiveblocks ctx newNodes, n.id = ln.id → n = ln := by
  apply merge_keeps_local ctx newNodes ln hln hlocal
  unfold mergeLocalNode
  by_cases hd : ln.id ∈ ctx.dragging
  · simp [hd]
  · rw [if_neg (by simpa using hd),
      jsMapGet_eq_some_of_mem newNodes rn ln.id hrn hid hremote]
    simp [hlt, hrt]

/-- Witness for C1: a remote snapshot demoting node n1 to `promptNode` leaves
the local `answerNode` n1 in the merged result. -/
theorem merge_no_type_regression_witness :
    (⟨"n1", some "answerNode", ⟨⟨0, 0⟩, ⟨0, 0⟩⟩, [("userMessage", JSVal.str "hi")]⟩ : Node)
      ∈ handleNodesChangeFromLiveblocks
          ⟨[⟨"n1", some "answerNode", ⟨⟨0, 0⟩, ⟨0, 0⟩⟩, [("userMessage", JSVal.str "hi")]⟩],
            [], false, 0, 5000, JSVal.fn 0⟩
          [⟨"n1", some "promptNode", ⟨⟨1, 0⟩, ⟨1, 0⟩⟩, []⟩] :=
  (merge_no_type_regression
    ⟨[⟨"n1", some "answerNode", ⟨⟨0, 0⟩, ⟨0, 0⟩⟩, [("userMessage", JSVal.str "hi")]⟩],
      [], false, 0, 5000, JSVal.fn 0⟩
    [⟨"n1", some "promptNode", ⟨⟨1, 0⟩, ⟨1, 0⟩⟩, []⟩]
    ⟨"n1", some "answerNode", ⟨⟨0, 0⟩, ⟨0, 0⟩⟩, [("userMessage", JSVal.str "hi")]⟩
    ⟨"n1", some "promptNode", ⟨⟨1, 0⟩, ⟨1, 0⟩⟩, []⟩
    (by decide) (by decide) (by decide) (by decide) (by decide)
    (by decide) (by decide)).1

/-- C3. Drag exclusion: a node whose id is in the dragging set is returned
verbatim by the merge, whatever the remote snapshot says about it, so its
local position is untouched; the merged list carries no other node with that
id.  Stated for local lists with unique node ids. -/
theorem merge_drag_exclusion (ctx : MergeCtx) (newNodes : List Node) (ln : Node)
    (hdrag : ctx.dragging.contains ln.id = true)
    (hln : ln ∈ ctx.localNodes)
    (hlocal : (ctx.localNodes.map Node.id).Nodup) :
    ln ∈ handleNodesChangeFromLiveblocks ctx newNodes
    ∧ ∀ n ∈ handleNodesChangeFromLiveblocks ctx newNodes, n.id = ln.id → n = ln := by
  apply merge_keeps_local ctx newNodes ln hln hlocal
  unfold mergeLocalNode
  have hd : ln.id ∈ ctx.dragging := by simpa using hdrag
  simp [hd]

/-- Witness for C3: node n2 at the origin is being dragged; a remote snapshot
placing n2 at position 50, 50 does not move the local node. -/
theorem merge_drag_exclusion_witness :
    (⟨"n2", some "promptNode", ⟨⟨0, 0⟩, ⟨0, 0⟩⟩, []⟩ : Node)
      ∈ handleNodesChangeFromLiveblocks
          ⟨[⟨"n2", some "promptNode", ⟨⟨0, 0⟩, ⟨0, 0⟩⟩, []⟩],
            ["n2"], false, 0, 5000, JSVal.fn 0⟩
          [⟨"n2", some "promptNode", ⟨⟨50, 0⟩, ⟨50, 0⟩⟩, []⟩] :=
  (merge_drag_exclusion
    ⟨[⟨"n2", some "promptNode", ⟨⟨0, 0⟩, ⟨0, 0⟩⟩, []⟩],
      ["n2"], false, 0, 5000, JSVal.fn 0⟩
    [⟨"n2", some "promptNode", ⟨⟨50, 0⟩, ⟨50, 0⟩⟩, []⟩]
    ⟨"n2", some "promptNode", ⟨⟨0, 0⟩, ⟨0, 0⟩⟩, []⟩
    (by decide) (by decide) (by decide)).1

/-- C7. Merge skip rules: an empty remote snapshot against a non-empty local
list, and any snapshot with fewer nodes than the local list, leave local
state completely unchanged. -/
theorem merge_skip_rules (ctx : MergeCtx) (newNodes : List Node) :
    (newNodes = [] → ctx.localNodes ≠ [] →
        handleNodesChangeFromLiveblocks ctx newNodes = ctx.localNodes)
    ∧ (newNodes.length < ctx.localNodes.length →
        handleNodesChangeFromLiveblocks ctx newNodes = ctx.localNodes) := by
  constructor
  · intro hempty hnonempty
    subst hempty
    unfold handleNodesChangeFromLiveblocks
    rw [if_pos ⟨rfl, List.length_pos.mpr hnonempty⟩]
  · intro hlen
    unfold handleNodesChangeFromLiveblocks
    by_cases h1 : newNodes.length = 0 ∧ 0 < ctx.localNodes.length
    · rw [if_pos h1]
    · rw [if_neg h1]
      by_cases h2 : ctx.hasRestored = true ∧ 0 < ctx.restoredTimestamp
          ∧ (ctx.now : Int) - (ctx.restoredTimestamp : Int) < 3000
      · rw [if_pos h2]
      · rw [if_neg h2, if_pos hlen]

/-- Witness for C7: an empty snapshot does not wipe a one-node canvas. -/
theorem merge_skip_rules_witness :
    handleNodesChangeFromLiveblocks
        ⟨[⟨"n1", some "answerNode", ⟨⟨0, 0⟩, ⟨0, 0⟩⟩, []⟩], [], false, 0, 0, JSVal.fn 0⟩ []
      = [⟨"n1", some "answerNode", ⟨⟨0, 0⟩, ⟨0, 0⟩⟩, []⟩] :=
  (merge_skip_rules
    ⟨[⟨"n1", some "answerNode", ⟨⟨0, 0⟩, ⟨0, 0⟩⟩, []⟩], [], false, 0, 0, JSVal.fn 0⟩
    []).1 rfl (by decide)

/-- The character of a decimal digit. -/
def digitChar (d : Nat) : Char := Char.ofNat (48 + d)

/-- Big-endian decimal digit list of a natural number (empty for zero). -/
def natToDigitList (n : Nat) : List Nat := (Nat.digits 10 n).reverse

/-- Value of a big-endian digit list. -/
def beVal (l : List Nat) : Nat := l.foldl (fun a d => 10 * a + d) 0

/-- The digit list printed for the JavaScript number `mAbs / 2 ^ k`: the
digits of `mAbs * 5 ^ k`, zero-padded on the left to at least `k + 1` digits
so that a decimal point can be placed `k` digits from the right. -/
def decimalDigits (mAbs k : Nat) : List Nat :=
  List.replicate (k + 1 - (natToDigitList (mAbs * 5 ^ k)).length) 0
    ++ natToDigitList (mAbs * 5 ^ k)

/-- Number::toString for the modelled numbers: sign, integer digits, and for
`k > 0` a decimal point followed by the `k` fraction digits.  This is the
exact decimal expansion of `m / 2 ^ k`; ECMAScript prints the shortest
decimal that parses back to the same binary64 value, and both choices make
`parseFloat` recover the value exactly. -/
def Dyadic.toStr (d : Dyadic) : String :=
  String.mk
    (if d.m < 0 then
      '-' :: ((decimalDigits d.m.natAbs d.k).take
          ((decimalDigits d.m.natAbs d.k).length - d.k)).map digitChar
        ++ (if d.k = 0 then [] else
            '.' :: ((decimalDigits d.m.natAbs d.k).drop
              ((decimalDigits d.m.natAbs d.k).length - d.k)).map digitChar)
    else
      ((decimalDigits d.m.natAbs d.k).take
          ((decimalDigits d.m.natAbs d.k).length - d.k)).map digitChar
        ++ (if d.k = 0 then [] else
            '.' :: ((decimalDigits d.m.natAbs d.k).drop
              ((decimalDigits d.m.natAbs d.k).length - d.k)).map digitChar))

/-- Decimal digit test, `0-9`. -/
def isDigitChar (c : Char) : Bool :=
  decide (48 ≤ c.toNat) && decide (c.toNat ≤ 57)

/-- Numeric value of a digit character. -/
def digitVal (c : Char) : Nat := c.toNat - 48

/-- Consume a maximal run of digit characters, returning the accumulated
value, the number of digits consumed, and the remaining characters. -/
def parseDigits : List Char → Nat → Nat × Nat × List Char
  | [], acc => (acc, 0, [])
  | c :: cs, acc =>
      if isDigitChar c then
        ((parseDigits cs (10 * acc + digitVal c)).1,
         (parseDigits cs (10 * acc + digitVal c)).2.1 + 1,
         (parseDigits cs (10 * acc + digitVal c)).2.2)
      else
        (acc, 0, c :: cs)

/-- Strip one optional leading minus sign. -/
def stripSign (cs : List Char) : Bool × List Char :=
  match cs with
  | [] => (false, [])
  | c :: rest => if c = '-' then (true, rest) else (false, c :: rest)

/-- The unsigned part of parseFloat: integer digits, then optionally a point
and fraction digits; trailing characters are ignored, as in ECMAScript. -/
def parseAfterSign (cs : List Char) : ℚ :=
  match (parseDigits cs 0).2.2 with
  | c :: rest2 =>
      if c = '.' then
        (((parseDigits cs 0).1 : ℚ) * 10 ^ (parseDigits rest2 0).2.1
            + ((parseDigits rest2 0).1 : ℚ))
          / 10 ^ (parseDigits rest2 0).2.1
      else ((parseDigits cs 0).1 : ℚ)
  | [] => ((parseDigits cs 0).1 : ℚ)

/-- parseFloat, modelled on the decimal grammar this code produces (sign,
digits, optional fraction).  ECMAScript additionally rounds the decimal value
to the nearest binary64; on the strings produced by Number::toString that
value is exactly representable, so the rounding is the identity and the model
returns the exact rational value. -/
def parseFloat (s : String) : ℚ :=
  if (stripSign s.data).1 = true then -(parseAfterSign (stripSign s.data).2)
  else parseAfterSign (stripSign s.data).2

/-- Whether a character list does not start with a digit, so a digit run
parse stops exactly there. -/
def headNotDigit (cs : List Char) : Bool :=
  match cs with
  | [] => true
  | c :: _ => !(isDigitChar c)

theorem beVal_foldl_acc (l : List Nat) :
    ∀ acc, l.foldl (fun a d => 10 * a + d) acc = acc * 10 ^ l.length + beVal l := by
  induction l with
  | nil => intro acc; simp [beVal]
  | cons d tl ih =>
      intro acc
      have h0 : beVal (d :: tl) = d * 10 ^ tl.length + beVal tl := by
        have h1 : beVal (d :: tl)
            = tl.foldl (fun a x => 10 * a + x) (10 * 0 + d) := rfl
        rw [h1, ih (10 * 0 + d)]
        ring
      rw [List.foldl_cons, ih (10 * acc + d), h0, List.length_cons]
      ring

theorem beVal_append (xs ys : List Nat) :
    beVal (xs ++ ys) = beVal xs * 10 ^ ys.length + beVal ys := by
  unfold beVal
  rw [List.foldl_append]
  exact beVal_foldl_acc ys _

theorem beVal_replicate_zero (j : Nat) : beVal (List.replicate j 0) = 0 := by
  induction j with
  | zero => rfl
  | succ j ih =>
      unfold beVal at ih ⊢
      rw [List.replicate_succ, List.foldl_cons]
      simpa using ih

theorem beVal_reverse_ofDigits (l : List Nat) :
    beVal l.reverse = Nat.ofDigits 10 l := by
  induction l with
  | nil => rfl
  | cons d tl ih =>
      rw [List.reverse_cons, beVal_append, Nat.ofDigits_cons, ih]
      have : beVal [d] = d := by simp [beVal]
      simp [this]
      ring

theorem beVal_natToDigitList (n : Nat) : beVal (natToDigitList n) = n := by
  unfold natToDigitList
  rw [beVal_reverse_ofDigits]
  exact_mod_cast Nat.ofDigits_digits 10 n

theorem natToDigitList_lt (n : Nat) : ∀ x ∈ natToDigitList n, x < 10 := by
  intro x hx
  unfold natToDigitList at hx
  rw [List.mem_reverse] at hx
  exact Nat.digits_lt_base (by norm_num) hx

theorem decimalDigits_lt (mAbs k : Nat) : ∀ x ∈ decimalDigits mAbs k, x < 10 := by
  intro x hx
  unfold decimalDigits at hx
  rcases List.mem_append.mp hx with h | h
  · have := List.eq_of_mem_replicate h
    omega
  · exact natToDigitList_lt _ x h

theorem decimalDigits_len (mAbs k : Nat) :
    k + 1 ≤ (decimalDigits mAbs k).length := by
  unfold decimalDigits
  rw [List.length_append, List.length_replicate]
  omega

theorem decimalDigits_beVal (mAbs k : Nat) :
    beVal (decimalDigits mAbs k) = mAbs * 5 ^ k := by
  unfold decimalDigits
  rw [beVal_append, beVal_replicate_zero, beVal_natToDigitList]
  simp

theorem digitChar_toNat (d : Nat) (h : d < 10) : (digitChar d).toNat = 48 + d := by
  interval_cases d <;> decide

theorem isDigitChar_digitChar (d : Nat) (h : d < 10) :
    isDigitChar (digitChar d) = true := by
  interval_cases d <;> decide

theorem digitVal_digitChar (d : Nat) (h : d < 10) : digitVal (digitChar d) = d := by
  interval_cases d <;> decide

theorem digitChar_ne_dash (d : Nat) (h : d < 10) : digitChar d ≠ '-' := by
  interval_cases d <;> decide

theorem parseDigits_spec (ds : List Nat) (rest : List Char) :
    ∀ acc, (∀ x ∈ ds, x < 10) → headNotDigit rest = true →
    parseDigits (ds.map digitChar ++ rest) acc
      = (ds.foldl (fun a x => 10 * a + x) acc, ds.length, rest) := by
  induction ds with
  | nil =>
      intro acc _ hrest
      cases rest with
      | nil => rfl
      | cons c cs =>
          have hc : isDigitChar c = false := by
            simpa [headNotDigit] using hrest
          simp [parseDigits, hc]
  | cons x ds ih =>
      intro acc hds hrest
      have hx : x < 10 := hds x (List.mem_cons_self x ds)
      have hdig := isDigitChar_digitChar x hx
      have hval := digitVal_digitChar x hx
      simp only [List.map_cons, List.cons_append, parseDigits, hdig, if_true, hval,
        List.append_eq]
      rw [ih _ (fun y hy => hds y (List.mem_cons_of_mem x hy)) hrest]
      simp

theorem parseDigits_all (ds : List Nat) (acc : Nat) (h : ∀ x ∈ ds, x < 10) :
    parseDigits (ds.map digitChar) acc
      = (ds.foldl (fun a x => 10 * a + x) acc, ds.length, []) := by
  have := parseDigits_spec ds [] acc h rfl
  simpa using this

theorem headNotDigit_dot (l : List Char) : headNotDigit ('.' :: l) = true := by
  show (!(isDigitChar '.')) = true
  decide

theorem parseFloat_neg_chars (cs : List Char) :
    parseFloat (String.mk ('-' :: cs)) = -(parseAfterSign cs) := by
  unfold parseFloat
  dsimp only
  rw [show stripSign ('-' :: cs) = (true, cs) from by simp [stripSign]]
  simp

theorem parseFloat_pos_chars (c : Char) (cs : List Char) (h : c ≠ '-') :
    parseFloat (String.mk (c :: cs)) = parseAfterSign (c :: cs) := by
  unfold parseFloat
  dsimp only
  rw [show stripSign (c :: cs) = (false, c :: cs) from by simp [stripSign, h]]
  simp

theorem parseAfterSign_spec (ip fp : List Nat) (k : Nat)
    (hip : ∀ x ∈ ip, x < 10) (hfp : ∀ x ∈ fp, x < 10) (hfplen : fp.length = k) :
    parseAfterSign (ip.map digitChar ++ (if k = 0 then [] else '.' :: fp.map digitChar))
      = ((beVal ip : ℚ) * 10 ^ k + (beVal fp : ℚ)) / 10 ^ k := by
  by_cases hk : k = 0
  · subst hk
    rw [if_pos rfl]
    have hfpe : fp = [] := List.eq_nil_of_length_eq_zero hfplen
    subst hfpe
    unfold parseAfterSign
    rw [List.append_nil, parseDigits_all ip 0 hip]
    simp [beVal]
  · rw [if_neg hk]
    unfold parseAfterSign
    rw [parseDigits_spec ip ('.' :: fp.map digitChar) 0 hip (headNotDigit_dot _)]
    simp only
    rw [if_pos trivial, parseDigits_all fp 0 hfp]
    simp [beVal, hfplen]

/-- Round-trip of the numeric encoding: parsing the printed decimal string of
a dyadic number recovers its exact rational value. -/
theorem parseFloat_toStr (d : Dyadic) : parseFloat (Dyadic.toStr d) = d.val := by
  unfold Dyadic.toStr
  set D := decimalDigits d.m.natAbs d.k with hD
  set ipL := D.take (D.length - d.k) with hipL
  set fpL := D.drop (D.length - d.k) with hfpL
  have hlen : d.k + 1 ≤ D.length := decimalDigits_len _ _
  have hlt : ∀ x ∈ D, x < 10 := decimalDigits_lt _ _
  have hsplit : ipL ++ fpL = D := by
    rw [hipL, hfpL]
    exact List.take_append_drop _ _
  have hfplen : fpL.length = d.k := by
    rw [hfpL, List.length_drop]
    omega
  have hiplen : 0 < ipL.length := by
    rw [hipL, List.length_take]
    omega
  have hipd : ∀ x ∈ ipL, x < 10 := fun x hx => hlt x (List.mem_of_mem_take hx)
  have hfpd : ∀ x ∈ fpL, x < 10 := fun x hx => hlt x (List.mem_of_mem_drop hx)
  have hvals : beVal ipL * 10 ^ d.k + beVal fpL = d.m.natAbs * 5 ^ d.k := by
    have h := beVal_append ipL fpL
    rw [hsplit, hfplen] at h
    have hbe := decimalDigits_beVal d.m.natAbs d.k
    rw [← hD] at hbe
    omega
  have hq : parseAfterSign (ipL.map digitChar
      ++ (if d.k = 0 then [] else '.' :: fpL.map digitChar))
      = ((d.m.natAbs : ℚ) * 5 ^ d.k) / 10 ^ d.k := by
    rw [parseAfterSign_spec ipL fpL d.k hipd hfpd hfplen]
    have hcast : ((beVal ipL : ℚ) * 10 ^ d.k + (beVal fpL : ℚ))
        = ((d.m.natAbs : ℚ) * 5 ^ d.k) := by
      exact_mod_cast congrArg (fun n : Nat => (n : ℚ)) hvals
    rw [hcast]
  have h2 : ((2 : ℚ)) ^ d.k ≠ 0 := pow_ne_zero _ two_ne_zero
  have h5 : ((5 : ℚ)) ^ d.k ≠ 0 := pow_ne_zero _ (by norm_num)
  have h10 : ((10 : ℚ)) ^ d.k = 2 ^ d.k * 5 ^ d.k := by
    rw [show (10 : ℚ) = 2 * 5 from by norm_num, mul_pow]
  obtain ⟨i0, ip', hipcons⟩ : ∃ i0 ip', ipL = i0 :: ip' := by
    cases hc : ipL with
    | nil => rw [hc] at hiplen; simp at hiplen
    | cons a b => exact ⟨a, b, rfl⟩
  have hi0 : i0 < 10 := hipd i0 (by rw [hipcons]; exact List.mem_cons_self i0 ip')
  by_cases hm : d.m < 0
  · have habs : ((d.m.natAbs : ℚ)) = -(d.m : ℚ) := by
      rw [Nat.cast_natAbs, abs_of_neg hm]
      push_cast
      ring
    rw [if_pos hm, List.cons_append, parseFloat_neg_chars, hq]
    unfold Dyadic.val
    rw [habs, h10]
    field_simp
    ring
  · have habs : ((d.m.natAbs : ℚ)) = (d.m : ℚ) := by
      rw [Nat.cast_natAbs, abs_of_nonneg (not_lt.mp hm)]
    rw [if_neg hm]
    rw [hipcons] at hq ⊢
    rw [List.map_cons] at hq ⊢
    rw [List.cons_append] at hq ⊢
    rw [parseFloat_pos_chars _ _ (digitChar_ne_dash i0 hi0), hq]
    unfold Dyadic.val
    rw [habs, h10]
    field_simp
    ring

/-- A flow node record in database format, the argument shape of
saveFlowNode (src/lib/db/flow-queries.ts): positions are stored as decimal
strings. -/
structure DBFlowNode where
  id : String
  chatId : String
  type : String
  positionX : String
  positionY : String
  data : JSObj
  parentNodeId : JSVal
  userMessageId : Option String
  assistantMessageId : Option String
deriving DecidableEq, Repr

/-- reactFlowNodeToDb (src/lib/db/flow-queries.ts, lines 354-371):
`node.type || 'default'`, `node.position.x.toString()`, and the
`(node.data as any)?.parentNodeId` field read. -/
def reactFlowNodeToDb (node : Node) (chatId : String)
    (userMessageId assistantMessageId : Option String) : DBFlowNode :=
  { id := node.id
    chatId := chatId
    type := jsOrDefault node.type "default"
    positionX := node.position.x.toStr
    positionY := node.position.y.toStr
    data := node.data
    parentNodeId := jsGet node.data "parentNodeId"
    userMessageId := userMessageId
    assistantMessageId := assistantMessageId }

/-- The ReactFlow node produced by reading a database record back: its
position coordinates are the parsed float values, held here as exact
rationals. -/
structure RFNode where
  id : String
  type : String
  x : ℚ
  y : ℚ
  data : JSObj
  draggable : Bool
deriving DecidableEq, Repr

/-- dbNodeToReactFlow (src/lib/db/flow-queries.ts, lines 376-387):
`parseFloat(dbNode.positionX)` and `draggable: true`. -/
def dbNodeToReactFlow (dbNode : DBFlowNode) : RFNode :=
  { id := dbNode.id
    type := dbNode.type
    x := parseFloat dbNode.positionX
    y := parseFloat dbNode.positionY
    data := dbNode.data
    draggable := true }

/-- C8. Database round-trip: for a node with a truthy `type`, converting to a
database record and back reproduces the id, the type, both position
coordinates (exactly, at the rational values of the decimal-string encoding),
and the data payload. -/
theorem dbNode_roundtrip (node : Node) (chatId : String)
    (userMessageId assistantMessageId : Option String) (t : String)
    (ht : node.type = some t) (hne : t ≠ "") :
    (dbNodeToReactFlow (reactFlowNodeToDb node chatId userMessageId assistantMessageId)).id
        = node.id
    ∧ (dbNodeToReactFlow (reactFlowNodeToDb node chatId userMessageId assistantMessageId)).type
        = t
    ∧ (dbNodeToReactFlow (reactFlowNodeToDb node chatId userMessageId assistantMessageId)).x
        = node.position.x.val
    ∧ (dbNodeToReactFlow (reactFlowNodeToDb node chatId userMessageId assistantMessageId)).y
        = node.position.y.val
    ∧ (dbNodeToReactFlow (reactFlowNodeToDb node chatId userMessageId assistantMessageId)).data
        = node.data := by
  unfold dbNodeToReactFlow reactFlowNodeToDb
  refine ⟨rfl, ?_, ?_, ?_, rfl⟩
  · simp [jsOrDefault, ht, hne]
  · exact parseFloat_toStr node.position.x
  · exact parseFloat_toStr node.position.y

/-- Witness for C8: a prompt node at position x = 1.5, y = -3.125 survives
the database round-trip with id, type, exact position values, and data
intact. -/
theorem dbNode_roundtrip_witness :
    (dbNodeToReactFlow (reactFlowNodeToDb
        ⟨"n1", some "promptNode", ⟨⟨3, 1⟩, ⟨-25, 3⟩⟩, [("foo", JSVal.str "bar")]⟩
        "c1" none none)).type = "promptNode"
    ∧ (dbNodeToReactFlow (reactFlowNodeToDb
        ⟨"n1", some "promptNode", ⟨⟨3, 1⟩, ⟨-25, 3⟩⟩, [("foo", JSVal.str "bar")]⟩
        "c1" none none)).x = (⟨3, 1⟩ : Dyadic).val
    ∧ (dbNodeToReactFlow (reactFlowNodeToDb
        ⟨"n1", some "promptNode", ⟨⟨3, 1⟩, ⟨-25, 3⟩⟩, [("foo", JSVal.str "bar")]⟩
        "c1" none none)).y = (⟨-25, 3⟩ : Dyadic).val := by
  have h := dbNode_roundtrip
    ⟨"n1", some "promptNode", ⟨⟨3, 1⟩, ⟨-25, 3⟩⟩, [("foo", JSVal.str "bar")]⟩
    "c1" none none "promptNode" rfl (by decide)
  exact ⟨h.2.1, h.2.2.1, h.2.2.2.1⟩

/-- A declarative node change, modelling the external @xyflow/react change
records at the level the core relies on (move, remove, add; dimension and
selection changes carry no stored state). -/
inductive NodeChange where
  | position (id : String) (pos : Pos)
  | remove (id : String)
  | add (node : Node)
deriving DecidableEq, Repr

/-- Model of the external @xyflow/react `applyNodeChanges` helper. -/
def applyNodeChanges (changes : List NodeChange) (nodes : List Node) : List Node :=
  changes.foldl
    (fun ns ch =>
      match ch with
      | .position i p => ns.map (fun n => if n.id = i then { n with position := p } else n)
      | .remove i => ns.filter (fun n => !(n.id == i))
      | .add n => ns ++ [n])
    nodes

/-- A declarative edge change, modelling the external @xyflow/react records. -/
inductive EdgeChange where
  | remove (id : String)
  | add (edge : Edge)
deriving DecidableEq, Repr

/-- Model of the external @xyflow/react `applyEdgeChanges` helper. -/
def applyEdgeChanges (changes : List EdgeChange) (edges : List Edge) : List Edge :=
  changes.foldl
    (fun es ch =>
      match ch with
      | .remove i => es.filter (fun e => !(e.id == i))
      | .add e => es ++ [e])
    edges

/-- updateNodes (src/hooks/use-realtime-flow.ts, lines 227-262), the mutation
body: apply the changes to the cached local list, write every resulting node
back (preserving `parentNodeId` and `createdAt` of an existing record), and
delete every record of this chat partition whose id no longer appears. -/
def updateNodes (m : LiveMap LiveFlowNode) (changes : List NodeChange)
    (localNodes : List Node) (chatId nowIso : String) :
    LiveMap LiveFlowNode × List Node :=
  let updatedNodes := applyNodeChanges changes localNodes
  let m1 := updatedNodes.foldl
    (fun acc node =>
      acc.set node.id
        { id := node.id
          type := jsOrDefault node.type "default"
          position := node.position
          data := node.data
          parentNodeId := match acc.get node.id with
            | some e => e.parentNodeId
            | none => none
          chatId := chatId
          createdAt := match acc.get node.id with
            | some e => e.createdAt
            | none => nowIso
          updatedAt := nowIso })
    m
  (m1.filterEntries
      (fun k v => !((v.chatId == chatId) && !((updatedNodes.map Node.id).contains k))),
   updatedNodes)

/-- updateNodePosition (src/hooks/use-realtime-flow.ts, lines 276-291), the
mutation body: write only position and updatedAt of an existing record of
this chat partition. -/
def updateNodePosition (m : LiveMap LiveFlowNode) (nodeId : String) (pos : Pos)
    (chatId nowIso : String) : LiveMap LiveFlowNode :=
  match m.get nodeId with
  | some node =>
      if node.chatId = chatId then
        m.set nodeId { node with position := pos, updatedAt := nowIso }
      else m
  | none => m

/-- updateEdges (src/hooks/use-realtime-flow.ts, lines 294-331), the mutation
body: batch-apply, write back preserving creation metadata, and delete
records of the partition whose id disappeared. -/
def updateEdges (m : LiveMap LiveFlowEdge) (changes : List EdgeChange)
    (localEdges : List Edge) (chatId nowIso userId userColor : String) :
    LiveMap LiveFlowEdge × List Edge :=
  let updatedEdges := applyEdgeChanges changes localEdges
  let m1 := updatedEdges.foldl
    (fun acc e =>
      acc.set e.id
        { id := e.id
          source := e.source
          target := e.target
          type := e.type
          animated := e.animated
          style := e.style
          chatId := chatId
          createdAt := match acc.get e.id with
            | some x => x.createdAt
            | none => nowIso
          creatorId := match acc.get e.id with
            | some x => x.creatorId
            | none => userId
          creatorColor := match acc.get e.id with
            | some x => x.creatorColor
            | none => userColor })
    m
  (m1.filterEntries
      (fun k v => !((v.chatId == chatId) && !((updatedEdges.map Edge.id).contains k))),
   updatedEdges)

/-- The Liveblocks storage root (src/liveblocks.config.ts, Storage type). -/
structure Storage where
  flowNodes : LiveMap LiveFlowNode
  flowEdges : LiveMap LiveFlowEdge
  nodeLocks : LiveMap NodeLock
deriving DecidableEq, Repr

/-- Accessing storage inside a mutation: before the initial load has
completed the access throws a storage-not-ready error, modelled as
`Except.error`. -/
def storageGet (st : Option Storage) : Except String Storage :=
  match st with
  | some s => Except.ok s
  | none => Except.error "storage not ready"

/-- A JavaScript try/catch whose handler only logs: an exception from the
body is swallowed and the fallback value (the unchanged state) is returned
normally. -/
def jsTry {α : Type} (body : Except String α) (onCatch : α) : Except String α :=
  match body with
  | Except.ok v => Except.ok v
  | Except.error _ => Except.ok onCatch

/-- The addNode entry point with its try/catch wrapper
(src/hooks/use-realtime-flow.ts, lines 334-363). -/
def addNodeEntry (st : Option Storage) (node : Node) (chatId nowIso : String) :
    Except String (Option Storage) :=
  jsTry
    (do
      let s ← storageGet st
      pure (some { s with flowNodes := addNode s.flowNodes node chatId nowIso }))
    st

/-- The addEdge entry point with its try/catch wrapper (lines 366-397). -/
def addEdgeEntry (st : Option Storage) (edge : Edge)
    (chatId nowIso userId userColor : String) : Except String (Option Storage) :=
  jsTry
    (do
      let s ← storageGet st
      pure (some { s with
        flowEdges := addEdge s.flowEdges edge chatId nowIso userId userColor }))
    st

/-- The updateNodes entry point with its try/catch wrapper (lines 227-262);
returns the storage state and the new cached local list. -/
def updateNodesEntry (st : Option Storage) (changes : List NodeChange)
    (localNodes : List Node) (chatId nowIso : String) :
    Except String (Option Storage × List Node) :=
  jsTry
    (do
      let s ← storageGet st
      let r := updateNodes s.flowNodes changes localNodes chatId nowIso
      pure (some { s with flowNodes := r.1 }, r.2))
    (st, localNodes)

/-- The updateEdges entry point with its try/catch wrapper (lines 294-331). -/
def updateEdgesEntry (st : Option Storage) (changes : List EdgeChange)
    (localEdges : List Edge) (chatId nowIso userId userColor : String) :
    Except String (Option Storage × List Edge) :=
  jsTry
    (do
      let s ← storageGet st
      let r := updateEdges s.flowEdges changes localEdges chatId nowIso userId userColor
      pure (some { s with flowEdges := r.1 }, r.2))
    (st, localEdges)

/-- The updateNodePosition entry point with its try/catch wrapper
(lines 276-291). -/
def updateNodePositionEntry (st : Option Storage) (nodeId : String) (pos : Pos)
    (chatId nowIso : String) : Except String (Option Storage) :=
  jsTry
    (do
      let s ← storageGet st
      pure (some { s with
        flowNodes := updateNodePosition s.flowNodes nodeId pos chatId nowIso }))
    st

/-- The deleteNode entry point with its try/catch wrapper (lines 400-419). -/
def deleteNodeEntry (st : Option Storage) (nodeId : String) :
    Except String (Option Storage) :=
  jsTry
    (do
      let s ← storageGet st
      let r := deleteNode s.flowNodes s.flowEdges nodeId
      pure (some { s with flowNodes := r.1, flowEdges := r.2 }))
    st

/-- The acquireLock entry point (lines 422-444).  NOTE: the source has no
try/catch here; a storage access failure propagates to the caller. -/
def acquireLockEntry (st : Option Storage) (nodeId userId userName : String)
    (now : Nat) : Except String (Bool × Option Storage) := do
  let s ← storageGet st
  let r := acquireLock s.nodeLocks nodeId userId userName now
  pure (r.1, some { s with nodeLocks := r.2 })

/-- The releaseLock entry point (lines 446-454), likewise without try/catch. -/
def releaseLockEntry (st : Option Storage) (nodeId userId : String) :
    Except String (Option Storage) := do
  let s ← storageGet st
  pure (some { s with nodeLocks := releaseLock s.nodeLocks nodeId userId })

/-- The renewLock entry point (lines 456-467), likewise without try/catch. -/
def renewLockEntry (st : Option Storage) (nodeId userId : String) (now : Nat) :
    Except String (Bool × Option Storage) := do
  let s ← storageGet st
  let r := renewLock s.nodeLocks nodeId userId now
  pure (r.1, some { s with nodeLocks := r.2 })

/-- The cleanupExpiredLocks entry point (lines 483-493), likewise without
try/catch. -/
def cleanupExpiredLocksEntry (st : Option Storage) (now : Nat) :
    Except String (Option Storage) := do
  let s ← storageGet st
  pure (some { s with nodeLocks := cleanupExpiredLocks s.nodeLocks now })

/-- C9 counterexample: contrary to the claim, acquireLock does not catch
store-level exceptions; invoked before storage is ready it propagates the
storage-not-ready error to its caller instead of dropping the operation. -/
theorem acquireLockEntry_throws_counterexample :
    acquireLockEntry none "n1" "alice" "Alice" 0
      = Except.error "storage not ready" := rfl

/-- C9 amended: the six node and edge mutation entry points (addNode,
addEdge, updateNodes, updateEdges, updateNodePosition, deleteNode) wrap their
bodies in try/catch and never propagate an error, returning normally with the
operation dropped; the four lock operations (acquireLock, releaseLock,
renewLock, cleanupExpiredLocks) have no such wrapper and propagate the
storage-not-ready error when invoked before storage is loaded. -/
theorem mutation_exception_policy :
    (∀ st node chatId nowIso, (addNodeEntry st node chatId nowIso).isOk = true)
    ∧ (∀ st edge chatId nowIso userId userColor,
        (addEdgeEntry st edge chatId nowIso userId userColor).isOk = true)
    ∧ (∀ st changes localNodes chatId nowIso,
        (updateNodesEntry st changes localNodes chatId nowIso).isOk = true)
    ∧ (∀ st changes localEdges chatId nowIso userId userColor,
        (updateEdgesEntry st changes localEdges chatId nowIso userId userColor).isOk = true)
    ∧ (∀ st nodeId pos chatId nowIso,
        (updateNodePositionEntry st nodeId pos chatId nowIso).isOk = true)
    ∧ (∀ st nodeId, (deleteNodeEntry st nodeId).isOk = true)
    ∧ (∀ nodeId userId userName now,
        acquireLockEntry none nodeId userId userName now
          = Except.error "storage not ready")
    ∧ (∀ nodeId userId,
        releaseLockEntry none nodeId userId = Except.error "storage not ready")
    ∧ (∀ nodeId userId now,
        renewLockEntry none nodeId userId now = Except.error "storage not ready")
    ∧ (∀ now, cleanupExpiredLocksEntry none now = Except.error "storage not ready") := by
  refine ⟨?_, ?_, ?_, ?_, ?_, ?_, ?_, ?_, ?_, ?_⟩
  · intro st node chatId nowIso
    cases st <;> rfl
  · intro st edge chatId nowIso userId userColor
    cases st <;> rfl
  · intro st changes localNodes chatId nowIso
    cases st <;> rfl
  · intro st changes localEdges chatId nowIso userId userColor
    cases st <;> rfl
  · intro st nodeId pos chatId nowIso
    cases st <;> rfl
  · intro st nodeId
    cases st <;> rfl
  · intro nodeId userId userName now
    rfl
  · intro nodeId userId
    rfl
  · intro nodeId userId now
    rfl
  · intro now
    rfl

end Synapse
